import Mathlib

/-!
Verification of the Soccer Field Booking System backend (`main.py`,
`app/models/models.py`, `app/schemas/schemas.py`).

The relational store is embedded as lists of records; each route handler of
`main.py` becomes a pure function from its request data and the store to an
`Except`-style result paired with the successor store.  Dates and timestamps
are abstract `Nat` instants.  The helpers of `app/core/auth.py` (password
hashing/verification and token issuance) are not part of the sources and are
modelled from the specification where noted.
-/

/-- `schemas.UserRole` / `models.UserRole`: admin, manager, owner. -/
inductive UserRole
  | admin
  | manager
  | owner
  deriving DecidableEq

/-- The string value of each `schemas.UserRole` member; the route handlers
compare the stored role string of a user row against these values. -/
def UserRole.val : UserRole → String
  | .admin => "admin"
  | .manager => "manager"
  | .owner => "owner"

/-- `schemas.BookingStatus`: Booked, Deposit Paid, Done, Rescheduled, Cancelled. -/
inductive BookingStatus
  | booked
  | depositPaid
  | done
  | rescheduled
  | cancelled
  deriving DecidableEq

/-- `models.TimeSlot`: id, unique shift name, start/end time strings, price.
Prices in the seed table are integral, so the `Float` column is carried as `Nat`. -/
structure TimeSlot where
  id : Nat
  shift_name : String
  start_time : String
  end_time : String
  price : Nat
  deriving DecidableEq

/-- `models.Booking`: customer fields, date, slot reference, notes, status,
created/updated timestamps. -/
structure Booking where
  id : Nat
  customer_name : String
  email : String
  phone : String
  booking_date : Nat
  time_slot_id : Nat
  notes : Option String
  status : BookingStatus
  created_at : Nat
  updated_at : Nat
  deriving DecidableEq

/-- `models.User`: credentials (stored password hash), role, last login/logout.
The role column is a plain string (`role = Column(String)`): rows are created
out of band and may hold any value, not only the three enum values. -/
structure User where
  id : Nat
  username : String
  email : String
  password : String
  role : String
  last_login : Option Nat
  last_logout : Option Nat
  deriving DecidableEq

/-- `models.Inventory`: four equipment counts, check date, recording user. -/
structure Inventory where
  id : Nat
  balls : Int
  shoes : Int
  jerseys : Int
  gloves : Int
  check_date : Nat
  updated_by : Nat
  deriving DecidableEq

/-- The relational store: one list per table plus the autoincrement counters. -/
structure DB where
  time_slots : List TimeSlot
  bookings : List Booking
  users : List User
  inventory : List Inventory
  next_slot_id : Nat
  next_booking_id : Nat
  next_inventory_id : Nat
  deriving DecidableEq

/-- The empty store (fresh database file before any operation). -/
def emptyDB : DB :=
  { time_slots := [], bookings := [], users := [], inventory := []
    next_slot_id := 1, next_booking_id := 1, next_inventory_id := 1 }

/-- The error taxonomy surfaced by the handlers as `HTTPException`s. -/
inductive ApiError
  | notFound (detail : String)
  | badRequest (detail : String)
  | unauthorized (detail : String)
  | forbidden (detail : String)
  deriving DecidableEq

/-- HTTP status code carried by each error class. -/
def status_code : ApiError → Nat
  | .notFound _ => 404
  | .badRequest _ => 400
  | .unauthorized _ => 401
  | .forbidden _ => 403

/-- `schemas.BookingCreate`: the request body of `POST /bookings`; note that it
has no status field, so the inserted row takes the model default `Booked`. -/
structure BookingCreate where
  customer_name : String
  email : String
  phone : String
  booking_date : Nat
  time_slot_id : Nat
  notes : Option String
  deriving DecidableEq

/-- `schemas.InventoryCreate`: the request body of `POST /admin/inventory`. -/
structure InventoryCreate where
  balls : Int
  shoes : Int
  jerseys : Int
  gloves : Int
  check_date : Nat
  deriving DecidableEq

/-- The ten fixed seed tuples of `init_time_slots`. -/
def seed_slots : List (String × String × String × Nat) :=
  [ ("Shift 1", "06:00", "07:30", 500000),
    ("Shift 2", "07:30", "09:00", 500000),
    ("Shift 3", "09:00", "10:30", 400000),
    ("Shift 4", "10:30", "12:00", 400000),
    ("Shift 5", "13:00", "14:30", 400000),
    ("Shift 6", "14:30", "16:00", 400000),
    ("Shift 7", "16:00", "17:30", 600000),
    ("Shift 8", "18:30", "20:00", 800000),
    ("Shift 9", "20:00", "21:30", 800000),
    ("Shift 10", "21:30", "23:00", 800000) ]

/-- One iteration of the seeding loop: query by shift name, insert if absent. -/
def seed_step (db : DB) (s : String × String × String × Nat) : DB :=
  match db.time_slots.find? (fun t => t.shift_name == s.1) with
  | some _ => db
  | none =>
      { db with
        time_slots := db.time_slots ++
          [{ id := db.next_slot_id, shift_name := s.1, start_time := s.2.1,
             end_time := s.2.2.1, price := s.2.2.2 }]
        next_slot_id := db.next_slot_id + 1 }

/-- `init_time_slots` of `main.py`: run the seeding loop over the ten tuples. -/
def init_time_slots (db : DB) : DB :=
  seed_slots.foldl seed_step db

/-- Modelled from the spec: `app/core/auth.py` is not among the sources.
`get_password_hash` is its password-hashing helper; any injective encoding
serves the embedding. -/
def get_password_hash (plain : String) : String :=
  "hash$" ++ plain

/-- Modelled from the spec: `app/core/auth.py` is not among the sources.
`verify_password` checks a plaintext password against the stored hash. -/
def verify_password (plain hashed : String) : Bool :=
  get_password_hash plain == hashed

/-- Modelled from the spec: the token lifetime constant of `app/core/auth.py`
(the spec only says tokens are time-limited). -/
def ACCESS_TOKEN_EXPIRE_MINUTES : Nat := 30

/-- A bearer token: signed payload with the subject claim and expiry instant. -/
structure AccessToken where
  sub : String
  expires_at : Nat
  deriving DecidableEq

/-- Modelled from the spec: `create_access_token` of `app/core/auth.py` issues
a signed, time-limited token; `data={"sub": user.email}`. -/
def create_access_token (sub : String) (expires_delta : Nat) (now : Nat) : AccessToken :=
  { sub := sub, expires_at := now + expires_delta }

/-- Update in place of `user.last_login = datetime.utcnow()` on the row
matched by email (emails are unique; the query takes the first match). -/
def set_last_login (users : List User) (email : String) (now : Nat) : List User :=
  match users with
  | [] => []
  | u :: rest =>
      if u.email == email then { u with last_login := some now } :: rest
      else u :: set_last_login rest email now

/-- `login` (`POST /token`): look up the user by email, verify the password,
record last login and issue the token.  Returns the token with its
`token_type` string, alongside the successor store. -/
def login (username password : String) (now : Nat) (db : DB) :
    Except ApiError (AccessToken × String) × DB :=
  match db.users.find? (fun u => u.email == username) with
  | none => (.error (.unauthorized "Incorrect email or password"), db)
  | some user =>
      if verify_password password user.password then
        (.ok (create_access_token user.email ACCESS_TOKEN_EXPIRE_MINUTES now, "bearer"),
         { db with users := set_last_login db.users username now })
      else
        (.error (.unauthorized "Incorrect email or password"), db)

/-- The slot-existence query of `create_booking`. -/
def find_time_slot (db : DB) (slot_id : Nat) : Option TimeSlot :=
  db.time_slots.find? (fun s => s.id == slot_id)

/-- A booking counts toward the double-booking check when its status is
Booked or Deposit Paid. -/
def isActive (b : Booking) : Bool :=
  b.status == BookingStatus.booked || b.status == BookingStatus.depositPaid

/-- The conflict query of `create_booking`: first existing booking on the same
date and slot whose status is in {Booked, Deposit Paid}. -/
def find_conflict (db : DB) (d slot_id : Nat) : Option Booking :=
  db.bookings.find? (fun b =>
    b.booking_date == d && b.time_slot_id == slot_id && isActive b)

/-- The row inserted by `create_booking`: status defaults to Booked and both
timestamps default to the current instant. -/
def new_booking (req : BookingCreate) (now id : Nat) : Booking :=
  { id := id, customer_name := req.customer_name, email := req.email,
    phone := req.phone, booking_date := req.booking_date,
    time_slot_id := req.time_slot_id, notes := req.notes,
    status := BookingStatus.booked, created_at := now, updated_at := now }

/-- `create_booking` (`POST /bookings`): 404 when the slot does not exist,
400 when an active booking occupies the same date and slot, otherwise insert
and return the row together with its joined time slot. -/
def create_booking (req : BookingCreate) (now : Nat) (db : DB) :
    Except ApiError (Booking × TimeSlot) × DB :=
  match find_time_slot db req.time_slot_id with
  | none => (.error (.notFound "Time slot not found"), db)
  | some time_slot =>
      match find_conflict db req.booking_date req.time_slot_id with
      | some _ =>
          (.error (.badRequest "This time slot is already booked for the selected date"), db)
      | none =>
          let nb := new_booking req now db.next_booking_id
          (.ok (nb, time_slot),
           { db with bookings := db.bookings ++ [nb],
                     next_booking_id := db.next_booking_id + 1 })

/-- The staff role set shared by booking listing, status update and
inventory-latest: `[schemas.UserRole.ADMIN, MANAGER, OWNER]` as role values. -/
def staff_roles : List String :=
  [UserRole.admin.val, UserRole.manager.val, UserRole.owner.val]

/-- Default of the `skip` query parameter in the route signature. -/
def DEFAULT_SKIP : Nat := 0

/-- Default of the `limit` query parameter in the route signature. -/
def DEFAULT_LIMIT : Nat := 100

/-- `get_all_bookings` (`GET /admin/bookings`): role check, then
`offset(skip).limit(limit)` over the booking table. -/
def get_all_bookings (current_user : User) (db : DB)
    (skip limit : Nat) : Except ApiError (List Booking) :=
  if staff_roles.contains current_user.role then
    .ok ((db.bookings.drop skip).take limit)
  else
    .error (.forbidden "Not authorized")

/-- The listing endpoint called with both query parameters omitted. -/
def get_all_bookings_default (current_user : User) (db : DB) :
    Except ApiError (List Booking) :=
  get_all_bookings current_user db DEFAULT_SKIP DEFAULT_LIMIT

/-- Update in place of the first booking row matching the id: set its status
and refresh `updated_at`, as `update_booking_status` does after `first()`. -/
def set_booking_status (bs : List Booking) (booking_id : Nat)
    (st : BookingStatus) (now : Nat) : List Booking :=
  match bs with
  | [] => []
  | b :: rest =>
      if b.id == booking_id then { b with status := st, updated_at := now } :: rest
      else b :: set_booking_status rest booking_id st now

/-- `update_booking_status` (`PUT /admin/bookings/{id}/status`): role check
first, then 404 when the id matches no booking, otherwise set status and
refresh the updated timestamp. -/
def update_booking_status (booking_id : Nat) (new_status : BookingStatus)
    (current_user : User) (now : Nat) (db : DB) : Except ApiError String × DB :=
  if staff_roles.contains current_user.role then
    match db.bookings.find? (fun b => b.id == booking_id) with
    | none => (.error (.notFound "Booking not found"), db)
    | some _ =>
        (.ok "Booking status updated successfully",
         { db with bookings := set_booking_status db.bookings booking_id new_status now })
  else
    (.error (.forbidden "Not authorized"), db)

/-- `create_inventory_check` (`POST /admin/inventory`): Admin/Manager only;
insert a row attributed to the authenticated user and return it. -/
def create_inventory_check (req : InventoryCreate) (current_user : User) (db : DB) :
    Except ApiError Inventory × DB :=
  if current_user.role == UserRole.admin.val || current_user.role == UserRole.manager.val then
    let row : Inventory :=
      { id := db.next_inventory_id, balls := req.balls, shoes := req.shoes,
        jerseys := req.jerseys, gloves := req.gloves,
        check_date := req.check_date, updated_by := current_user.id }
    (.ok row,
     { db with inventory := db.inventory ++ [row],
               next_inventory_id := db.next_inventory_id + 1 })
  else
    (.error (.forbidden "Not authorized"), db)

/-- `order_by(check_date.desc()).first()`: a row of maximal check date
(keeping the earlier row on ties), `none` on an empty table. -/
def latest_by_check_date : List Inventory → Option Inventory
  | [] => none
  | r :: rest =>
      match latest_by_check_date rest with
      | none => some r
      | some r' => if r.check_date < r'.check_date then some r' else some r

/-- `get_latest_inventory` (`GET /admin/inventory/latest`): staff roles only;
the row with the maximum check date, 404 when no rows exist. -/
def get_latest_inventory (current_user : User) (db : DB) : Except ApiError Inventory :=
  if staff_roles.contains current_user.role then
    match latest_by_check_date db.inventory with
    | none => .error (.notFound "No inventory records found")
    | some row => .ok row
  else
    .error (.forbidden "Not authorized")

/-- One operation of the system, for reachability statements. -/
inductive Op
  | opSeed
  | opLogin (username password : String) (now : Nat)
  | opCreateBooking (req : BookingCreate) (now : Nat)
  | opUpdateStatus (booking_id : Nat) (st : BookingStatus) (user : User) (now : Nat)
  | opCreateInventory (req : InventoryCreate) (user : User)

/-- The state transition of one operation (response discarded). -/
def exec : Op → DB → DB
  | .opSeed, db => init_time_slots db
  | .opLogin u p now, db => (login u p now db).2
  | .opCreateBooking req now, db => (create_booking req now db).2
  | .opUpdateStatus i st u now, db => (update_booking_status i st u now db).2
  | .opCreateInventory req u, db => (create_inventory_check req u db).2

/-- Run a sequence of operations from a store. -/
def run (ops : List Op) (db : DB) : DB :=
  ops.foldl (fun d op => exec op d) db

/-- Two bookings double-book each other when both are active and they share
the date and the slot. -/
def conflicts (a b : Booking) : Bool :=
  isActive a && isActive b &&
  a.booking_date == b.booking_date && a.time_slot_id == b.time_slot_id

/-- The uniqueness invariant: no two active bookings share (date, slot). -/
def no_double_booking : List Booking → Bool
  | [] => true
  | b :: rest => rest.all (fun b' => !(conflicts b b')) && no_double_booking rest

/-! ### Concrete fixtures used by witnesses and counterexamples -/

/-- A store holding the first seeded slot and nothing else. -/
def slot1 : TimeSlot :=
  { id := 1, shift_name := "Shift 1", start_time := "06:00",
    end_time := "07:30", price := 500000 }

/-- A store with one time slot and no bookings, users or inventory. -/
def dbWithSlot : DB := { emptyDB with time_slots := [slot1], next_slot_id := 2 }

/-- A booking request for slot 1. -/
def reqAlice : BookingCreate :=
  { customer_name := "Alice", email := "alice@example.com", phone := "0123",
    booking_date := 739033, time_slot_id := 1, notes := none }

/-- An admin user. -/
def adminUser : User :=
  { id := 1, username := "admin", email := "admin@example.com",
    password := get_password_hash "secret", role := UserRole.admin.val,
    last_login := none, last_logout := none }

/-- An owner user. -/
def ownerUser : User :=
  { id := 2, username := "owner", email := "owner@example.com",
    password := get_password_hash "ownerpw", role := UserRole.owner.val,
    last_login := none, last_logout := none }

/-- A store holding one registered user. -/
def dbWithUser : DB := { emptyDB with users := [adminUser] }

/-- Two inventory rows with distinct check dates, earlier date first. -/
def invA : Inventory :=
  { id := 1, balls := 10, shoes := 5, jerseys := 8, gloves := 2,
    check_date := 5, updated_by := 1 }

/-- The later inventory check. -/
def invB : Inventory :=
  { id := 2, balls := 9, shoes := 5, jerseys := 8, gloves := 2,
    check_date := 9, updated_by := 1 }

/-- A store holding two inventory rows, not in date order of interest. -/
def dbWithInventory : DB :=
  { emptyDB with inventory := [invA, invB], next_inventory_id := 3 }

/-- An authenticated user whose role string is outside the enum values. -/
def cleanerUser : User :=
  { id := 3, username := "cleaner", email := "cleaner@example.com",
    password := get_password_hash "pw", role := "cleaner",
    last_login := none, last_logout := none }

/-- An inventory-check request body. -/
def invReq : InventoryCreate :=
  { balls := 1, shoes := 2, jerseys := 3, gloves := 4, check_date := 7 }

/-- The booking row created by `reqAlice` at instant 5 with id 1. -/
def bookedRow : Booking := new_booking reqAlice 5 1

/-- A store holding one slot and one Booked booking on it. -/
def dbWithBooking : DB :=
  { emptyDB with
    time_slots := [slot1]
    bookings := [bookedRow]
    next_slot_id := 2
    next_booking_id := 2 }

/-- An operation sequence performs no re-activation when every status update
in it targets a status outside {Booked, Deposit Paid}. -/
def allows_no_reactivation : Op → Bool
  | .opUpdateStatus _ st _ _ =>
      !(st == BookingStatus.booked || st == BookingStatus.depositPaid)
  | _ => true

/-- Seed, book slot 1, cancel that booking, book the pair again, then
re-activate the cancelled booking: two active bookings share (date, slot). -/
def breakOps : List Op :=
  [Op.opSeed,
   Op.opCreateBooking reqAlice 0,
   Op.opUpdateStatus 1 BookingStatus.cancelled adminUser 1,
   Op.opCreateBooking reqAlice 2,
   Op.opUpdateStatus 1 BookingStatus.booked adminUser 3]

/-- The same run without the final re-activation step. -/
def okOps : List Op :=
  [Op.opSeed,
   Op.opCreateBooking reqAlice 0,
   Op.opUpdateStatus 1 BookingStatus.cancelled adminUser 1,
   Op.opCreateBooking reqAlice 2]

/-! ### C1: creation of bookings -/

/-- C1.  For every booking-creation request: an unknown `time_slot_id` yields
NotFound (404) and an unchanged store; an existing active booking on the same
(date, slot) yields Conflict (400) and an unchanged store; otherwise the
request inserts a booking whose status is Booked and returns it together with
the joined time slot; and a second create for the same date+slot pair after a
first successful one fails with Conflict. -/
theorem create_booking_correct (req : BookingCreate) (now : Nat) (db : DB) :
    (find_time_slot db req.time_slot_id = none →
      create_booking req now db = (.error (.notFound "Time slot not found"), db) ∧
      status_code (.notFound "Time slot not found") = 404) ∧
    (∀ ts, find_time_slot db req.time_slot_id = some ts →
      find_conflict db req.booking_date req.time_slot_id ≠ none →
      create_booking req now db =
        (.error (.badRequest "This time slot is already booked for the selected date"), db) ∧
      status_code (.badRequest "This time slot is already booked for the selected date") = 400) ∧
    (∀ ts, find_time_slot db req.time_slot_id = some ts →
      find_conflict db req.booking_date req.time_slot_id = none →
      create_booking req now db =
        (.ok (new_booking req now db.next_booking_id, ts),
         { db with bookings := db.bookings ++ [new_booking req now db.next_booking_id],
                   next_booking_id := db.next_booking_id + 1 }) ∧
      (new_booking req now db.next_booking_id).status = BookingStatus.booked ∧
      ts.id = req.time_slot_id) ∧
    (∀ req2 now2 nb ts db2, create_booking req now db = (.ok (nb, ts), db2) →
      req2.booking_date = req.booking_date → req2.time_slot_id = req.time_slot_id →
      (create_booking req2 now2 db2).1 =
        .error (.badRequest "This time slot is already booked for the selected date")) := by
  refine ⟨?_, ?_, ?_, ?_⟩
  · intro h
    unfold create_booking
    rw [h]
    exact ⟨rfl, rfl⟩
  · intro ts hts hc
    unfold create_booking
    rw [hts]
    cases hfc : find_conflict db req.booking_date req.time_slot_id with
    | none => exact absurd hfc hc
    | some b => exact ⟨rfl, rfl⟩
  · intro ts hts hfc
    unfold create_booking
    rw [hts, hfc]
    refine ⟨rfl, rfl, ?_⟩
    have hp := List.find?_some hts
    simpa using hp
  · intro req2 now2 nb ts db2 hok hdate hslot
    have hts : ∃ ts0, find_time_slot db req.time_slot_id = some ts0 := by
      cases h : find_time_slot db req.time_slot_id with
      | none =>
        rw [create_booking, h] at hok
        simp at hok
      | some ts0 => exact ⟨ts0, rfl⟩
    obtain ⟨ts0, hts0⟩ := hts
    have hfc : find_conflict db req.booking_date req.time_slot_id = none := by
      cases h : find_conflict db req.booking_date req.time_slot_id with
      | none => rfl
      | some b =>
        rw [create_booking, hts0, h] at hok
        simp at hok
    rw [create_booking, hts0, hfc] at hok
    have hdb2 : db2 =
        { db with bookings := db.bookings ++ [new_booking req now db.next_booking_id],
                  next_booking_id := db.next_booking_id + 1 } :=
      (((Prod.mk.injEq _ _ _ _).mp hok).2).symm
    rw [create_booking]
    have hslots : find_time_slot db2 req2.time_slot_id = some ts0 := by
      rw [hdb2, hslot]
      exact hts0
    rw [hslots]
    have hp : (fun b => b.booking_date == req.booking_date &&
        b.time_slot_id == req.time_slot_id && isActive b)
        (new_booking req now db.next_booking_id) = true := by
      simp [new_booking, isActive]
    have hconf : find_conflict db2 req2.booking_date req2.time_slot_id =
        some (new_booking req now db.next_booking_id) := by
      rw [hdb2, hdate, hslot]
      unfold find_conflict at hfc ⊢
      rw [List.find?_append, hfc, Option.none_or]
      exact List.find?_cons_of_pos _ hp
    rw [hconf]

/-- C1 witness: concrete store with one slot and no bookings; the first create
succeeds with status Booked and the second create on the same date+slot pair
fails with Conflict. -/
theorem create_booking_correct_witness :
    (create_booking reqAlice 5 dbWithSlot).1 =
      .ok (new_booking reqAlice 5 1, slot1) ∧
    (create_booking reqAlice 6 (create_booking reqAlice 5 dbWithSlot).2).1 =
      .error (.badRequest "This time slot is already booked for the selected date") := by
  have h := create_booking_correct reqAlice 5 dbWithSlot
  have h3 := (h.2.2.1 slot1 (by rfl) (by rfl)).1
  constructor
  · rw [h3]
    rfl
  · have h4 := h.2.2.2 reqAlice 6 (new_booking reqAlice 5 dbWithSlot.next_booking_id)
      slot1 _ h3 rfl rfl
    rw [h3]
    exact h4

/-! ### C2: the double-booking invariant under all operations -/

/-- A deactivated booking cannot be the right side of a conflict. -/
theorem conflicts_false_of_inactive_right (b x : Booking) (h : isActive x = false) :
    conflicts b x = false := by
  simp [conflicts, h]

/-- A deactivated booking cannot be the left side of a conflict. -/
theorem conflicts_false_of_inactive_left (b x : Booking) (h : isActive b = false) :
    conflicts b x = false := by
  simp [conflicts, h]

/-- Appending one booking keeps the invariant iff it held before and the new
row conflicts with no existing row. -/
theorem no_double_booking_append (bs : List Booking) (nb : Booking) :
    no_double_booking (bs ++ [nb]) = true ↔
      (no_double_booking bs = true ∧ ∀ b ∈ bs, conflicts b nb = false) := by
  induction bs with
  | nil => simp [no_double_booking]
  | cons b rest ih =>
      simp [no_double_booking, ih, List.all_eq_true, Bool.not_eq_true',
        or_imp, forall_and, forall_eq]
      tauto

/-- A successful create only inserts a row that passed the conflict
pre-check, so the invariant survives `create_booking`. -/
theorem create_booking_preserves_invariant (req : BookingCreate) (now : Nat) (db : DB)
    (h : no_double_booking db.bookings = true) :
    no_double_booking (create_booking req now db).2.bookings = true := by
  cases hts : find_time_slot db req.time_slot_id with
  | none => simpa [create_booking, hts] using h
  | some ts =>
    cases hfc : find_conflict db req.booking_date req.time_slot_id with
    | some b => simpa [create_booking, hts, hfc] using h
    | none =>
      have hgoal : (create_booking req now db).2.bookings =
          db.bookings ++ [new_booking req now db.next_booking_id] := by
        simp [create_booking, hts, hfc]
      rw [hgoal]
      apply (no_double_booking_append _ _).mpr
      refine ⟨h, fun b hb => ?_⟩
      have hfc' : List.find? (fun b => b.booking_date == req.booking_date &&
          b.time_slot_id == req.time_slot_id && isActive b) db.bookings = none := hfc
      have hx := List.find?_eq_none.mp hfc' b hb
      have hne : conflicts b (new_booking req now db.next_booking_id) ≠ true := by
        intro hcon
        apply hx
        simp only [conflicts, new_booking, Bool.and_eq_true] at hcon
        simp only [Bool.and_eq_true]
        tauto
      simpa using hne

/-- Setting the first row with a matching id to an inactive status keeps every
row of the list conflict-free against a fixed booking. -/
theorem set_booking_status_keeps_not_conflict (b : Booking) (bs : List Booking)
    (booking_id : Nat) (st : BookingStatus) (now : Nat)
    (hst : (st == BookingStatus.booked || st == BookingStatus.depositPaid) = false)
    (h : ∀ x ∈ bs, conflicts b x = false) :
    ∀ x ∈ set_booking_status bs booking_id st now, conflicts b x = false := by
  induction bs with
  | nil => intro x hx; simp [set_booking_status] at hx
  | cons y rest ih =>
      intro x hx
      simp only [set_booking_status] at hx
      split at hx
      · rcases List.mem_cons.mp hx with he | hxr
        · subst he
          exact conflicts_false_of_inactive_right _ _ hst
        · exact h x (List.mem_cons_of_mem _ hxr)
      · rcases List.mem_cons.mp hx with he | hxr
        · subst he
          exact h x (List.mem_cons_self _ _)
        · exact ih (fun z hz => h z (List.mem_cons_of_mem _ hz)) x hxr

/-- A status update to an inactive status preserves the invariant. -/
theorem set_booking_status_preserves_invariant (bs : List Booking)
    (booking_id : Nat) (st : BookingStatus) (now : Nat)
    (hst : (st == BookingStatus.booked || st == BookingStatus.depositPaid) = false)
    (h : no_double_booking bs = true) :
    no_double_booking (set_booking_status bs booking_id st now) = true := by
  induction bs with
  | nil => simpa [set_booking_status] using h
  | cons y rest ih =>
      simp only [no_double_booking, Bool.and_eq_true, List.all_eq_true,
        Bool.not_eq_true'] at h
      obtain ⟨h1, h2⟩ := h
      simp only [set_booking_status]
      split
      · simp only [no_double_booking, Bool.and_eq_true, List.all_eq_true,
          Bool.not_eq_true']
        exact ⟨fun x hx => conflicts_false_of_inactive_left _ _ hst, h2⟩
      · simp only [no_double_booking, Bool.and_eq_true, List.all_eq_true,
          Bool.not_eq_true']
        exact ⟨set_booking_status_keeps_not_conflict y rest booking_id st now hst h1,
          ih h2⟩

/-- Seeding never touches the booking table. -/
theorem init_time_slots_bookings (db : DB) :
    (init_time_slots db).bookings = db.bookings := by
  have main : ∀ (L : List (String × String × String × Nat)) (d : DB),
      (L.foldl seed_step d).bookings = d.bookings := by
    intro L
    induction L with
    | nil => intro d; rfl
    | cons s rest ih =>
        intro d
        rw [List.foldl_cons, ih]
        unfold seed_step
        cases d.time_slots.find? (fun t => t.shift_name == s.1) <;> rfl
  exact main seed_slots db

/-- Logging in never touches the booking table. -/
theorem login_bookings (u p : String) (now : Nat) (db : DB) :
    (login u p now db).2.bookings = db.bookings := by
  cases h : db.users.find? (fun x => x.email == u) with
  | none => simp [login, h]
  | some user => cases hv : verify_password p user.password <;> simp [login, h, hv]

/-- Recording an inventory check never touches the booking table. -/
theorem create_inventory_check_bookings (req : InventoryCreate) (u : User) (db : DB) :
    (create_inventory_check req u db).2.bookings = db.bookings := by
  by_cases hr : (u.role == UserRole.admin.val || u.role == UserRole.manager.val) = true <;>
    simp [create_inventory_check, hr]

/-- A status update whose target status is inactive preserves the invariant,
whatever the role check and lookup do. -/
theorem update_booking_status_preserves_invariant (booking_id : Nat)
    (st : BookingStatus) (u : User) (now : Nat) (db : DB)
    (hst : (st == BookingStatus.booked || st == BookingStatus.depositPaid) = false)
    (h : no_double_booking db.bookings = true) :
    no_double_booking (update_booking_status booking_id st u now db).2.bookings = true := by
  by_cases hr : u.role ∈ staff_roles
  · cases hf : db.bookings.find? (fun b => b.id == booking_id) with
    | none => simpa [update_booking_status, hr, hf] using h
    | some b =>
        have hgoal : (update_booking_status booking_id st u now db).2.bookings =
            set_booking_status db.bookings booking_id st now := by
          simp [update_booking_status, hr, hf]
        rw [hgoal]
        exact set_booking_status_preserves_invariant _ _ _ _ hst h
  · simpa [update_booking_status, hr] using h

/-- Every single operation that does not re-activate a booking preserves the
invariant. -/
theorem exec_preserves_invariant (op : Op) (db : DB)
    (hop : allows_no_reactivation op = true)
    (h : no_double_booking db.bookings = true) :
    no_double_booking (exec op db).bookings = true := by
  cases op with
  | opSeed =>
      show no_double_booking (init_time_slots db).bookings = true
      rw [init_time_slots_bookings]; exact h
  | opLogin u p now =>
      show no_double_booking (login u p now db).2.bookings = true
      rw [login_bookings]; exact h
  | opCreateBooking req now => exact create_booking_preserves_invariant req now db h
  | opUpdateStatus i st u now =>
      have hst : (st == BookingStatus.booked || st == BookingStatus.depositPaid) = false := by
        simpa [allows_no_reactivation] using hop
      exact update_booking_status_preserves_invariant i st u now db hst h
  | opCreateInventory req u =>
      show no_double_booking (create_inventory_check req u db).2.bookings = true
      rw [create_inventory_check_bookings]; exact h

/-- Unfolding one step of a run. -/
theorem run_cons (op : Op) (rest : List Op) (db : DB) :
    run (op :: rest) db = run rest (exec op db) := rfl

/-- C2 counterexample: the state reached by seeding, booking slot 1, cancelling
that booking, booking the pair again, and re-activating the cancelled booking
violates the double-booking invariant, so the claim as stated is false. -/
theorem no_double_booking_reachable_violation :
    no_double_booking (run breakOps emptyDB).bookings = false := by decide

/-- C2 (amended): the double-booking invariant holds in every state reachable
from the empty store by sequences of the program's operations in which every
`update_booking_status` step sets a status outside {Booked, Deposit Paid};
an update to Booked or Deposit Paid performs no conflict check and can break
the invariant. -/
theorem no_double_booking_invariant (ops : List Op)
    (h : ∀ op ∈ ops, allows_no_reactivation op = true) :
    no_double_booking (run ops emptyDB).bookings = true := by
  have main : ∀ (l : List Op) (db : DB), (∀ op ∈ l, allows_no_reactivation op = true) →
      no_double_booking db.bookings = true →
      no_double_booking (run l db).bookings = true := by
    intro l
    induction l with
    | nil => intro db _ hdb; exact hdb
    | cons op rest ih =>
        intro db hl hdb
        rw [run_cons]
        exact ih (exec op db) (fun x hx => hl x (List.mem_cons_of_mem _ hx))
          (exec_preserves_invariant op db (hl op (List.mem_cons_self _ _)) hdb)
  exact main ops emptyDB h rfl

/-- C2 witness: the amended invariant applied to a concrete run that seeds,
books, cancels and books the freed pair again. -/
theorem no_double_booking_invariant_witness :
    (∀ op ∈ okOps, allows_no_reactivation op = true) ∧
    no_double_booking (run okOps emptyDB).bookings = true :=
  ⟨by decide, no_double_booking_invariant okOps (by decide)⟩

/-! ### C3: login -/

/-- `set_last_login` rewrites exactly the first row matching the email — the
row the login query found — and nothing else. -/
theorem set_last_login_spec (users : List User) (username : String) (now : Nat)
    (u : User) (hf : users.find? (fun x => x.email == username) = some u) :
    ∃ l r, users = l ++ u :: r ∧ (∀ x ∈ l, (x.email == username) = false) ∧
      set_last_login users username now =
        l ++ { u with last_login := some now } :: r := by
  induction users with
  | nil => simp at hf
  | cons y rest ih =>
      by_cases hy : (y.email == username) = true
      · have hf2 : List.find? (fun x => x.email == username) (y :: rest) = some y :=
          @List.find?_cons_of_pos User (fun x => x.email == username) y rest hy
        rw [hf2] at hf
        obtain rfl : y = u := Option.some.inj hf
        refine ⟨[], rest, rfl, by simp, ?_⟩
        simp only [set_last_login]
        rw [if_pos hy]
        rfl
      · have hf2 : List.find? (fun x => x.email == username) (y :: rest) =
            List.find? (fun x => x.email == username) rest :=
          @List.find?_cons_of_neg User (fun x => x.email == username) y rest hy
        rw [hf2] at hf
        obtain ⟨l, r, h1, h2, h3⟩ := ih hf
        refine ⟨y :: l, r, by rw [h1]; rfl, ?_, ?_⟩
        · intro x hx
          rcases List.mem_cons.mp hx with rfl | hx
          · simpa using hy
          · exact h2 x hx
        · simp only [set_last_login]
          rw [if_neg hy, h3]
          rfl

/-- C3.  `login`: when no user has the given email, or the password does not
verify against the stored hash, the call fails with Unauthorized (401) and the
store — in particular every `last_login` — is unchanged; on success the first
user matching the email gets `last_login := now`, every other row is
untouched, and the issued token carries the user's email as subject. -/
theorem login_correct (username password : String) (now : Nat) (db : DB) :
    (db.users.find? (fun x => x.email == username) = none →
      login username password now db =
        (.error (.unauthorized "Incorrect email or password"), db) ∧
      status_code (.unauthorized "Incorrect email or password") = 401) ∧
    (∀ u, db.users.find? (fun x => x.email == username) = some u →
      verify_password password u.password = false →
      login username password now db =
        (.error (.unauthorized "Incorrect email or password"), db)) ∧
    (∀ u, db.users.find? (fun x => x.email == username) = some u →
      verify_password password u.password = true →
      login username password now db =
        (.ok (create_access_token u.email ACCESS_TOKEN_EXPIRE_MINUTES now, "bearer"),
         { db with users := set_last_login db.users username now }) ∧
      (create_access_token u.email ACCESS_TOKEN_EXPIRE_MINUTES now).sub = u.email ∧
      ∃ l r, db.users = l ++ u :: r ∧
        set_last_login db.users username now =
          l ++ { u with last_login := some now } :: r) := by
  refine ⟨?_, ?_, ?_⟩
  · intro h
    unfold login
    rw [h]
    exact ⟨rfl, rfl⟩
  · intro u hf hv
    simp [login, hf, hv]
  · intro u hf hv
    refine ⟨?_, rfl, ?_⟩
    · simp [login, hf, hv]
    · obtain ⟨l, r, h1, _, h3⟩ := set_last_login_spec db.users username now u hf
      exact ⟨l, r, h1, h3⟩

/-- C3 witness: at a store with one user, the wrong password leaves the store
unchanged and the right password sets `last_login` and yields a token whose
subject is the user's email. -/
theorem login_correct_witness :
    login "admin@example.com" "wrong" 7 dbWithUser =
      (.error (.unauthorized "Incorrect email or password"), dbWithUser) ∧
    login "admin@example.com" "secret" 7 dbWithUser =
      (.ok (create_access_token adminUser.email ACCESS_TOKEN_EXPIRE_MINUTES 7, "bearer"),
       { dbWithUser with users := set_last_login dbWithUser.users "admin@example.com" 7 }) := by
  have h := login_correct "admin@example.com" "wrong" 7 dbWithUser
  have h' := login_correct "admin@example.com" "secret" 7 dbWithUser
  exact ⟨h.2.1 adminUser (by rfl) (by decide),
    (h'.2.2 adminUser (by rfl) (by decide)).1⟩

/-! ### C4: seeding idempotence -/

/-- Each pass of the seeding loop only appends rows, and only rows whose
shift name is absent from the starting table. -/
theorem seed_foldl_append (L : List (String × String × String × Nat)) :
    ∀ d : DB, ∃ added, (L.foldl seed_step d).time_slots = d.time_slots ++ added ∧
      ∀ t ∈ added, ∀ t' ∈ d.time_slots, (t'.shift_name == t.shift_name) = false := by
  induction L with
  | nil => intro d; exact ⟨[], by simp, by simp⟩
  | cons s L ih =>
      intro d
      rw [List.foldl_cons]
      cases hf : d.time_slots.find? (fun t => t.shift_name == s.1) with
      | some x =>
          have hstep : seed_step d s = d := by simp [seed_step, hf]
          rw [hstep]
          exact ih d
      | none =>
          obtain ⟨added', hadd', hname'⟩ := ih (seed_step d s)
          have hstep : (seed_step d s).time_slots = d.time_slots ++
              [{ id := d.next_slot_id, shift_name := s.1, start_time := s.2.1,
                 end_time := s.2.2.1, price := s.2.2.2 }] := by
            simp [seed_step, hf]
          refine ⟨{ id := d.next_slot_id, shift_name := s.1, start_time := s.2.1,
                    end_time := s.2.2.1, price := s.2.2.2 } :: added', ?_, ?_⟩
          · rw [hadd', hstep, List.append_assoc]
            rfl
          · intro t ht t' ht'
            rcases List.mem_cons.mp ht with rfl | ht
            · have hn := List.find?_eq_none.mp hf t' ht'
              simpa using hn
            · exact hname' t ht t' (by rw [hstep]; exact List.mem_append_left _ ht')

/-- Running the loop when every seed name is already present changes nothing. -/
theorem seed_foldl_fixed (L : List (String × String × String × Nat)) :
    ∀ d : DB, (∀ s ∈ L, d.time_slots.find? (fun t => t.shift_name == s.1) ≠ none) →
      L.foldl seed_step d = d := by
  induction L with
  | nil => intro d _; rfl
  | cons s L ih =>
      intro d h
      have hs := h s (List.mem_cons_self _ _)
      cases hf : d.time_slots.find? (fun t => t.shift_name == s.1) with
      | none => exact absurd hf hs
      | some x =>
          have hstep : seed_step d s = d := by simp [seed_step, hf]
          rw [List.foldl_cons, hstep]
          exact ih d (fun s' hs' => h s' (List.mem_cons_of_mem _ hs'))

/-- After a full pass of the loop, every processed seed name is present. -/
theorem seed_foldl_present (L : List (String × String × String × Nat)) :
    ∀ d : DB, ∀ s ∈ L,
      (L.foldl seed_step d).time_slots.find? (fun t => t.shift_name == s.1) ≠ none := by
  induction L with
  | nil => intro d s hs; simp at hs
  | cons s0 L ih =>
      intro d s hs
      rw [List.foldl_cons]
      rcases List.mem_cons.mp hs with rfl | hs
      · have hbase : (seed_step d s).time_slots.find?
            (fun t => t.shift_name == s.1) ≠ none := by
          cases hf : d.time_slots.find? (fun t => t.shift_name == s.1) with
          | some x =>
              have hstep : seed_step d s = d := by simp [seed_step, hf]
              rw [hstep, hf]
              simp
          | none =>
              have hstep : (seed_step d s).time_slots = d.time_slots ++
                  [{ id := d.next_slot_id, shift_name := s.1, start_time := s.2.1,
                     end_time := s.2.2.1, price := s.2.2.2 }] := by
                simp [seed_step, hf]
              rw [hstep, List.find?_append, hf, Option.none_or]
              simp
        obtain ⟨added, hadd, _⟩ := seed_foldl_append L (seed_step d s)
        rw [hadd, List.find?_append]
        cases hb : (seed_step d s).time_slots.find? (fun t => t.shift_name == s.1) with
        | none => exact absurd hb hbase
        | some x => simp
      · exact ih (seed_step d s0) s hs

/-- C4.  Seeding is idempotent: from the empty store one run creates exactly
10 slots and a second run creates none; in general a rerun is the identity,
and a run only appends rows whose shift name was not already present — it
never updates an existing row. -/
theorem init_time_slots_idempotent :
    (init_time_slots emptyDB).time_slots.length = 10 ∧
    (init_time_slots (init_time_slots emptyDB)).time_slots.length = 10 ∧
    (∀ db, init_time_slots (init_time_slots db) = init_time_slots db) ∧
    (∀ db, ∃ added, (init_time_slots db).time_slots = db.time_slots ++ added ∧
      ∀ t ∈ added, ∀ t' ∈ db.time_slots, (t'.shift_name == t.shift_name) = false) := by
  refine ⟨by decide, by decide, ?_, fun db => seed_foldl_append seed_slots db⟩
  intro db
  exact seed_foldl_fixed seed_slots (init_time_slots db)
    (fun s hs => seed_foldl_present seed_slots db s hs)

/-- C4 witness: on a store already holding "Shift 1", a rerun changes nothing
and a run only appends rows with fresh names. -/
theorem init_time_slots_idempotent_witness :
    init_time_slots (init_time_slots dbWithSlot) = init_time_slots dbWithSlot ∧
    ∃ added, (init_time_slots dbWithSlot).time_slots = dbWithSlot.time_slots ++ added ∧
      ∀ t ∈ added, ∀ t' ∈ dbWithSlot.time_slots, (t'.shift_name == t.shift_name) = false :=
  ⟨init_time_slots_idempotent.2.2.1 dbWithSlot, init_time_slots_idempotent.2.2.2 dbWithSlot⟩

/-! ### C5: latest inventory -/

/-- Unfolding the latest-row query on a cons whose tail query is empty. -/
theorem latest_cons_none {x : Inventory} {rest : List Inventory}
    (h : latest_by_check_date rest = none) :
    latest_by_check_date (x :: rest) = some x := by
  simp [latest_by_check_date, h]

/-- Unfolding the latest-row query on a cons whose tail query found a row. -/
theorem latest_cons_some {x r' : Inventory} {rest : List Inventory}
    (h : latest_by_check_date rest = some r') :
    latest_by_check_date (x :: rest) =
      if x.check_date < r'.check_date then some r' else some x := by
  simp [latest_by_check_date, h]

/-- The latest-row query returns nothing exactly on an empty table. -/
theorem latest_by_check_date_eq_none (l : List Inventory) :
    latest_by_check_date l = none ↔ l = [] := by
  cases l with
  | nil => simp [latest_by_check_date]
  | cons r rest =>
      constructor
      · intro hc
        cases h : latest_by_check_date rest with
        | none => rw [latest_cons_none h] at hc; simp at hc
        | some r' => rw [latest_cons_some h] at hc; split at hc <;> simp at hc
      · intro hc
        simp at hc

/-- The latest-row query returns a member of the table. -/
theorem latest_by_check_date_mem {l : List Inventory} {r : Inventory}
    (h : latest_by_check_date l = some r) : r ∈ l := by
  induction l with
  | nil => simp [latest_by_check_date] at h
  | cons x rest ih =>
      cases h0 : latest_by_check_date rest with
      | none =>
          rw [latest_cons_none h0] at h
          simp at h
          simp [h]
      | some r' =>
          rw [latest_cons_some h0] at h
          split at h
          · exact List.mem_cons_of_mem _ (ih (h0.trans h))
          · simp at h
            simp [h]

/-- The latest-row query bounds every row's check date. -/
theorem latest_by_check_date_ge {l : List Inventory} {r : Inventory}
    (h : latest_by_check_date l = some r) :
    ∀ y ∈ l, y.check_date ≤ r.check_date := by
  induction l generalizing r with
  | nil => simp [latest_by_check_date] at h
  | cons x rest ih =>
      intro y hy
      cases h0 : latest_by_check_date rest with
      | none =>
          have hrest : rest = [] := (latest_by_check_date_eq_none rest).mp h0
          rw [latest_cons_none h0] at h
          simp at h
          subst hrest
          rcases List.mem_cons.mp hy with rfl | hy
          · rw [h]
          · simp at hy
      | some r' =>
          rw [latest_cons_some h0] at h
          split at h
          · next hlt =>
              obtain rfl : r' = r := Option.some.inj h
              rcases List.mem_cons.mp hy with rfl | hy
              · exact Nat.le_of_lt hlt
              · exact ih h0 y hy
          · next hge =>
              obtain rfl : x = r := Option.some.inj h
              rcases List.mem_cons.mp hy with rfl | hy
              · exact Nat.le_refl _
              · exact Nat.le_trans (ih h0 y hy) (Nat.le_of_not_lt hge)

/-- When a unique row attains the maximal check date, the query returns it,
irrespective of where it sits in the table. -/
theorem latest_by_check_date_unique_max {l : List Inventory} {r : Inventory}
    (hr : r ∈ l) (hmax : ∀ y ∈ l, y ≠ r → y.check_date < r.check_date) :
    latest_by_check_date l = some r := by
  cases h0 : latest_by_check_date l with
  | none =>
      rw [latest_by_check_date_eq_none] at h0
      subst h0
      simp at hr
  | some r0 =>
      by_cases he : r0 = r
      · rw [he]
      · have h1 := hmax r0 (latest_by_check_date_mem h0) he
        have h2 := latest_by_check_date_ge h0 r hr
        exact absurd h1 (Nat.not_lt.mpr h2)

/-- C5.  For an authorized user, `get_latest_inventory` fails with NotFound
(404) exactly when no inventory rows exist; any returned row is a stored row
of maximal check date; and when a single row attains the maximum check date it
is the one returned, irrespective of insertion order. -/
theorem get_latest_inventory_correct (u : User) (db : DB)
    (hrole : u.role ∈ staff_roles) :
    (get_latest_inventory u db = .error (.notFound "No inventory records found") ↔
      db.inventory = []) ∧
    (∀ r, get_latest_inventory u db = .ok r →
      r ∈ db.inventory ∧ ∀ y ∈ db.inventory, y.check_date ≤ r.check_date) ∧
    (∀ r, r ∈ db.inventory →
      (∀ y ∈ db.inventory, y ≠ r → y.check_date < r.check_date) →
      get_latest_inventory u db = .ok r) ∧
    status_code (.notFound "No inventory records found") = 404 := by
  refine ⟨?_, ?_, ?_, rfl⟩
  · constructor
    · intro he
      cases h : latest_by_check_date db.inventory with
      | none => exact (latest_by_check_date_eq_none _).mp h
      | some r => simp [get_latest_inventory, hrole, h] at he
    · intro he
      have hn : latest_by_check_date db.inventory = none := by
        rw [he]
        rfl
      simp [get_latest_inventory, hrole, hn]
  · intro r hr
    cases h : latest_by_check_date db.inventory with
    | none => simp [get_latest_inventory, hrole, h] at hr
    | some r0 =>
        simp [get_latest_inventory, hrole, h] at hr
        subst hr
        exact ⟨latest_by_check_date_mem h, latest_by_check_date_ge h⟩
  · intro r hr hmax
    simp [get_latest_inventory, hrole, latest_by_check_date_unique_max hr hmax]

/-- C5 witness: with rows of check dates 5 and 9 stored in that order, an
admin gets the date-9 row; the role hypothesis and the unique-maximum
hypothesis are discharged concretely. -/
theorem get_latest_inventory_correct_witness :
    adminUser.role ∈ staff_roles ∧
    get_latest_inventory adminUser dbWithInventory = .ok invB := by
  have h := get_latest_inventory_correct adminUser dbWithInventory (by decide)
  exact ⟨by decide, h.2.2.1 invB (by decide) (by decide)⟩

/-! ### C6: per-endpoint role sets -/

/-- C6.  Booking listing, booking status-update and inventory-latest fail with
Forbidden (403) exactly when the user's role is not one of admin, manager,
owner; inventory-create fails with Forbidden exactly when the role is neither
admin nor manager; in particular an owner is rejected by inventory-create and
accepted (not Forbidden) by the other three endpoints. -/
theorem role_checks_correct (u : User) (db : DB) (skip limit booking_id : Nat)
    (st : BookingStatus) (inv : InventoryCreate) (now : Nat) :
    (get_all_bookings u db skip limit = .error (.forbidden "Not authorized") ↔
      u.role ∉ staff_roles) ∧
    ((update_booking_status booking_id st u now db).1 =
        .error (.forbidden "Not authorized") ↔ u.role ∉ staff_roles) ∧
    (get_latest_inventory u db = .error (.forbidden "Not authorized") ↔
      u.role ∉ staff_roles) ∧
    ((create_inventory_check inv u db).1 = .error (.forbidden "Not authorized") ↔
      (u.role ≠ UserRole.admin.val ∧ u.role ≠ UserRole.manager.val)) ∧
    (u.role = UserRole.owner.val →
      (create_inventory_check inv u db).1 = .error (.forbidden "Not authorized") ∧
      get_all_bookings u db skip limit ≠ .error (.forbidden "Not authorized") ∧
      (update_booking_status booking_id st u now db).1 ≠
        .error (.forbidden "Not authorized") ∧
      get_latest_inventory u db ≠ .error (.forbidden "Not authorized")) ∧
    status_code (.forbidden "Not authorized") = 403 := by
  have hlist : u.role ∈ staff_roles →
      get_all_bookings u db skip limit ≠ .error (.forbidden "Not authorized") := by
    intro hm
    simp [get_all_bookings, hm]
  have hupd : u.role ∈ staff_roles →
      (update_booking_status booking_id st u now db).1 ≠
        .error (.forbidden "Not authorized") := by
    intro hm
    cases h : db.bookings.find? (fun b => b.id == booking_id) <;>
      simp [update_booking_status, hm, h]
  have hlat : u.role ∈ staff_roles →
      get_latest_inventory u db ≠ .error (.forbidden "Not authorized") := by
    intro hm
    cases h : latest_by_check_date db.inventory <;>
      simp [get_latest_inventory, hm, h]
  refine ⟨?_, ?_, ?_, ?_, ?_, rfl⟩
  · by_cases hm : u.role ∈ staff_roles
    · exact iff_of_false (hlist hm) (by simp [hm])
    · exact iff_of_true (by simp [get_all_bookings, hm]) hm
  · by_cases hm : u.role ∈ staff_roles
    · exact iff_of_false (hupd hm) (by simp [hm])
    · exact iff_of_true (by simp [update_booking_status, hm]) hm
  · by_cases hm : u.role ∈ staff_roles
    · exact iff_of_false (hlat hm) (by simp [hm])
    · exact iff_of_true (by simp [get_latest_inventory, hm]) hm
  · by_cases ha : u.role = UserRole.admin.val
    · exact iff_of_false (by simp [create_inventory_check, ha]) (by simp [ha])
    · by_cases hg : u.role = UserRole.manager.val
      · exact iff_of_false (by simp [create_inventory_check, hg]) (by simp [hg])
      · exact iff_of_true (by simp [create_inventory_check, ha, hg]) ⟨ha, hg⟩
  · intro ho
    have hm : u.role ∈ staff_roles := by
      rw [ho]
      simp [staff_roles]
    refine ⟨?_, hlist hm, hupd hm, hlat hm⟩
    have ha : u.role ≠ UserRole.admin.val := by
      rw [ho]
      decide
    have hg : u.role ≠ UserRole.manager.val := by
      rw [ho]
      decide
    simp [create_inventory_check, ha, hg]

/-- C6 witness: the owner role is rejected by inventory-create and not
rejected by the three staff endpoints; a role string outside the enum is
rejected by booking listing. -/
theorem role_checks_correct_witness :
    ((create_inventory_check invReq ownerUser emptyDB).1 =
      .error (.forbidden "Not authorized") ∧
    get_all_bookings ownerUser emptyDB 0 100 ≠ .error (.forbidden "Not authorized") ∧
    (update_booking_status 1 BookingStatus.done ownerUser 0 emptyDB).1 ≠
      .error (.forbidden "Not authorized") ∧
    get_latest_inventory ownerUser emptyDB ≠ .error (.forbidden "Not authorized")) ∧
    get_all_bookings cleanerUser emptyDB 0 100 = .error (.forbidden "Not authorized") := by
  refine ⟨(role_checks_correct ownerUser emptyDB 0 100 1 BookingStatus.done invReq 0).2.2.2.2.1 rfl, ?_⟩
  exact (role_checks_correct cleanerUser emptyDB 0 100 1 BookingStatus.done invReq 0).1.mpr
    (by decide)

/-! ### C7 and C8: status update -/

/-- `set_booking_status` rewrites exactly the first row matching the id — the
row the handler's query found — and leaves every other row in place. -/
theorem set_booking_status_spec (bs : List Booking) (booking_id : Nat)
    (st : BookingStatus) (now : Nat) (b : Booking)
    (hf : bs.find? (fun x => x.id == booking_id) = some b) :
    ∃ l r, bs = l ++ b :: r ∧ (∀ x ∈ l, (x.id == booking_id) = false) ∧
      set_booking_status bs booking_id st now =
        l ++ { b with status := st, updated_at := now } :: r := by
  induction bs with
  | nil => simp at hf
  | cons y rest ih =>
      by_cases hy : (y.id == booking_id) = true
      · have hf2 : List.find? (fun x => x.id == booking_id) (y :: rest) = some y :=
          @List.find?_cons_of_pos Booking (fun x => x.id == booking_id) y rest hy
        rw [hf2] at hf
        obtain rfl : y = b := Option.some.inj hf
        refine ⟨[], rest, rfl, by simp, ?_⟩
        simp only [set_booking_status]
        rw [if_pos hy]
        rfl
      · have hf2 : List.find? (fun x => x.id == booking_id) (y :: rest) =
            List.find? (fun x => x.id == booking_id) rest :=
          @List.find?_cons_of_neg Booking (fun x => x.id == booking_id) y rest hy
        rw [hf2] at hf
        obtain ⟨l, r, h1, h2, h3⟩ := ih hf
        refine ⟨y :: l, r, by rw [h1]; rfl, ?_, ?_⟩
        · intro x hx
          rcases List.mem_cons.mp hx with rfl | hx
          · simpa using hy
          · exact h2 x hx
        · simp only [set_booking_status]
          rw [if_neg hy, h3]
          rfl

/-- C7.  For an authorized user, `update_status` fails with NotFound (404)
when no booking has the id; otherwise — for every target status, with no
transition validation — it succeeds, setting the found booking's status to
the new status and refreshing its updated timestamp. -/
theorem update_booking_status_correct (booking_id : Nat) (st : BookingStatus)
    (u : User) (now : Nat) (db : DB) (hrole : u.role ∈ staff_roles) :
    (db.bookings.find? (fun b => b.id == booking_id) = none →
      update_booking_status booking_id st u now db =
        (.error (.notFound "Booking not found"), db) ∧
      status_code (.notFound "Booking not found") = 404) ∧
    (∀ b, db.bookings.find? (fun b => b.id == booking_id) = some b →
      update_booking_status booking_id st u now db =
        (.ok "Booking status updated successfully",
         { db with bookings := set_booking_status db.bookings booking_id st now }) ∧
      ∃ l r, db.bookings = l ++ b :: r ∧
        set_booking_status db.bookings booking_id st now =
          l ++ { b with status := st, updated_at := now } :: r) := by
  constructor
  · intro h
    constructor
    · simp [update_booking_status, hrole, h]
    · rfl
  · intro b hf
    constructor
    · simp [update_booking_status, hrole, hf]
    · obtain ⟨l, r, h1, _, h3⟩ := set_booking_status_spec db.bookings booking_id st now b hf
      exact ⟨l, r, h1, h3⟩

/-- C7 witness: at a store with one Booked booking, the update to Done
succeeds (Booked → Done with no transition check) and an unknown id yields
NotFound. -/
theorem update_booking_status_correct_witness :
    update_booking_status 1 BookingStatus.done adminUser 9 dbWithBooking =
      (.ok "Booking status updated successfully",
       { dbWithBooking with
         bookings := set_booking_status dbWithBooking.bookings 1 BookingStatus.done 9 }) ∧
    update_booking_status 99 BookingStatus.done adminUser 9 dbWithBooking =
      (.error (.notFound "Booking not found"), dbWithBooking) :=
  ⟨((update_booking_status_correct 1 BookingStatus.done adminUser 9 dbWithBooking
      (by decide)).2 bookedRow (by rfl)).1,
   ((update_booking_status_correct 99 BookingStatus.done adminUser 9 dbWithBooking
      (by decide)).1 (by rfl)).1⟩

/-- C8.  A successful status update modifies only the matched booking's
status and updated timestamp: its other fields, every other booking row, and
the slot, user and inventory tables (and the id counters) are unchanged. -/
theorem update_booking_status_frame (booking_id : Nat) (st : BookingStatus)
    (u : User) (now : Nat) (db : DB) (b : Booking)
    (hrole : u.role ∈ staff_roles)
    (hf : db.bookings.find? (fun x => x.id == booking_id) = some b) :
    (update_booking_status booking_id st u now db).2.time_slots = db.time_slots ∧
    (update_booking_status booking_id st u now db).2.users = db.users ∧
    (update_booking_status booking_id st u now db).2.inventory = db.inventory ∧
    (update_booking_status booking_id st u now db).2.next_slot_id = db.next_slot_id ∧
    (update_booking_status booking_id st u now db).2.next_booking_id = db.next_booking_id ∧
    (update_booking_status booking_id st u now db).2.next_inventory_id =
      db.next_inventory_id ∧
    ∃ l r b', db.bookings = l ++ b :: r ∧
      (update_booking_status booking_id st u now db).2.bookings = l ++ b' :: r ∧
      b'.id = b.id ∧ b'.customer_name = b.customer_name ∧ b'.email = b.email ∧
      b'.phone = b.phone ∧ b'.booking_date = b.booking_date ∧
      b'.time_slot_id = b.time_slot_id ∧ b'.notes = b.notes ∧
      b'.created_at = b.created_at ∧ b'.status = st ∧ b'.updated_at = now := by
  have heq : (update_booking_status booking_id st u now db).2 =
      { db with bookings := set_booking_status db.bookings booking_id st now } := by
    simp [update_booking_status, hrole, hf]
  rw [heq]
  obtain ⟨l, r, h1, _, h3⟩ := set_booking_status_spec db.bookings booking_id st now b hf
  exact ⟨rfl, rfl, rfl, rfl, rfl, rfl, l, r, { b with status := st, updated_at := now },
    h1, h3, rfl, rfl, rfl, rfl, rfl, rfl, rfl, rfl, rfl, rfl⟩

/-- C8 witness: the frame condition at a concrete store with one booking. -/
theorem update_booking_status_frame_witness :
    (update_booking_status 1 BookingStatus.cancelled adminUser 9 dbWithBooking).2.time_slots =
      dbWithBooking.time_slots ∧
    (update_booking_status 1 BookingStatus.cancelled adminUser 9 dbWithBooking).2.users =
      dbWithBooking.users ∧
    ∃ l r b', dbWithBooking.bookings = l ++ bookedRow :: r ∧
      (update_booking_status 1 BookingStatus.cancelled adminUser 9 dbWithBooking).2.bookings =
        l ++ b' :: r ∧
      b'.id = bookedRow.id ∧ b'.customer_name = bookedRow.customer_name ∧
      b'.email = bookedRow.email ∧ b'.phone = bookedRow.phone ∧
      b'.booking_date = bookedRow.booking_date ∧
      b'.time_slot_id = bookedRow.time_slot_id ∧ b'.notes = bookedRow.notes ∧
      b'.created_at = bookedRow.created_at ∧ b'.status = BookingStatus.cancelled ∧
      b'.updated_at = 9 := by
  have h := update_booking_status_frame 1 BookingStatus.cancelled adminUser 9 dbWithBooking
    bookedRow (by decide) (by rfl)
  exact ⟨h.1, h.2.1, h.2.2.2.2.2.2⟩

/-! ### C9: booking listing pagination -/

/-- C9.  For an authorized user the listing returns the contiguous segment of
the booking table that skips the first `skip` rows and holds at most `limit`
rows; the query parameters default to 0 and 100, and a call with both omitted
returns at most 100 rows. -/
theorem get_all_bookings_correct (u : User) (db : DB) (skip limit : Nat)
    (hrole : u.role ∈ staff_roles) :
    get_all_bookings u db skip limit = .ok ((db.bookings.drop skip).take limit) ∧
    (∀ l, get_all_bookings u db skip limit = .ok l → l.length ≤ limit) ∧
    DEFAULT_SKIP = 0 ∧ DEFAULT_LIMIT = 100 ∧
    get_all_bookings_default u db = .ok ((db.bookings.drop 0).take 100) ∧
    (∀ l, get_all_bookings_default u db = .ok l → l.length ≤ 100) := by
  have h1 : get_all_bookings u db skip limit =
      .ok ((db.bookings.drop skip).take limit) := by
    simp [get_all_bookings, hrole]
  have hdef : get_all_bookings_default u db = .ok ((db.bookings.drop 0).take 100) := by
    simp [get_all_bookings_default, get_all_bookings, hrole, DEFAULT_SKIP, DEFAULT_LIMIT]
  refine ⟨h1, ?_, rfl, rfl, hdef, ?_⟩
  · intro l hl
    rw [h1] at hl
    obtain rfl : (db.bookings.drop skip).take limit = l := Except.ok.inj hl
    simp [List.length_take]
  · intro l hl
    rw [hdef] at hl
    obtain rfl : (db.bookings.drop 0).take 100 = l := Except.ok.inj hl
    simp [List.length_take]

/-- C9 witness: a concrete store with one booking; the default call returns
it and an offset call skips it. -/
theorem get_all_bookings_correct_witness :
    get_all_bookings adminUser dbWithBooking 0 100 =
      .ok ((dbWithBooking.bookings.drop 0).take 100) ∧
    get_all_bookings_default adminUser dbWithBooking =
      .ok ((dbWithBooking.bookings.drop 0).take 100) ∧
    get_all_bookings adminUser dbWithBooking 1 100 =
      .ok ((dbWithBooking.bookings.drop 1).take 100) := by
  have h := get_all_bookings_correct adminUser dbWithBooking 0 100 (by decide)
  have h' := get_all_bookings_correct adminUser dbWithBooking 1 100 (by decide)
  exact ⟨h.1, h.2.2.2.2.1, h'.1⟩

/-! ### C10: role check precedes existence check -/

/-- C10.  In `update_booking_status` the role check runs before the booking
lookup: a user whose role is outside {admin, manager, owner} always receives
Forbidden (403), never NotFound — also when no booking with the id exists —
and the store is unchanged. -/
theorem update_booking_status_forbidden_first (booking_id : Nat)
    (st : BookingStatus) (u : User) (now : Nat) (db : DB)
    (hrole : u.role ∉ staff_roles) :
    update_booking_status booking_id st u now db =
      (.error (.forbidden "Not authorized"), db) ∧
    (update_booking_status booking_id st u now db).1 ≠
      .error (.notFound "Booking not found") ∧
    status_code (.forbidden "Not authorized") = 403 := by
  have h : update_booking_status booking_id st u now db =
      (.error (.forbidden "Not authorized"), db) := by
    simp [update_booking_status, hrole]
  refine ⟨h, ?_, rfl⟩
  rw [h]
  simp

/-- C10 witness: a user with role "cleaner" on a store with no bookings at
all gets Forbidden, not NotFound, and the store is untouched. -/
theorem update_booking_status_forbidden_first_witness :
    update_booking_status 1 BookingStatus.done cleanerUser 0 emptyDB =
      (.error (.forbidden "Not authorized"), emptyDB) ∧
    (update_booking_status 1 BookingStatus.done cleanerUser 0 emptyDB).1 ≠
      .error (.notFound "Booking not found") := by
  have h := update_booking_status_forbidden_first 1 BookingStatus.done cleanerUser 0
    emptyDB (by decide)
  exact ⟨h.1, h.2.1⟩
